import Mathlib

/-!
# Verification of the post-management core (`src/controllers/postController.js`)

Shallow embedding of the post controller of the `threads_backend` repository.
The controller functions (`createPost`, `getPost`, `deletePost`,
`likeUnlikePost`, `replyToPost`, `getFeedPosts`, `getUserPosts`) are
translated into pure Lean functions over an explicit store state.

The mongoose models (`postModel.js`, `userModel.js`) are not part of the
sources; where their behaviour matters (schema defaults for `likes` and
`replies`, the system-assigned `createdAt` of a stored reply) the definitions
are modelled from the spec, and each such definition says so in its doc
comment.

User identities (Mongo ObjectIds) are opaque; we model them as `Nat`.
Timestamps are `Nat`. The blob store (cloudinary) is an environment
parameter: an upload function that may fail and a destroy function that may
fail.
-/

namespace ThreadsBackend

/-- A user record, as consumed from the `User` collaborator:
`_id`, `username`, `profilePicture` and the `following` set. -/
structure User where
  id : Nat
  username : String
  profilePicture : String
  following : List Nat
  deriving Repr, DecidableEq

/-- A reply embedded in a post.  The controller builds the plain object
`\x7b userId, text, userProfilePic, username \x7d`; such an object has no
`createdAt` field, which we model as `createdAt = none`.  The copy stored
inside the post's `replies` array receives a system-assigned timestamp
(`createdAt = some t`). -/
structure Reply where
  userId : Nat
  username : String
  userProfilePic : String
  text : String
  createdAt : Option Nat
  deriving Repr, DecidableEq

/-- A post aggregate: `_id`, `postedBy`, `text`, optional `img` URL,
the `likes` array of user ids (an array, so duplicates are representable),
the `replies` array and the system-assigned `createdAt`. -/
structure Post where
  id : Nat
  postedBy : Nat
  text : String
  img : Option String
  likes : List Nat
  replies : List Reply
  createdAt : Nat
  deriving Repr, DecidableEq

/-- The post store: the collection of persisted post documents. -/
abbrev Store := List Post

/-- `Post.findById`: first document whose `_id` matches. -/
def findPost (store : Store) (pid : Nat) : Option Post :=
  store.find? (fun p => p.id == pid)

/-- `document.save()` on a fetched document: overwrite the stored document
having the same `_id` with the in-memory copy. -/
def saveDoc (store : Store) (p : Post) : Store :=
  store.map (fun q => if q.id = p.id then p else q)

/-- JavaScript falsiness of an optional string field of `req.body`:
`!x` is true when the field is missing or the empty string. -/
def optStrFalsy : Option String → Bool
  | none => true
  | some s => s.isEmpty

/-- Descending order by a `Nat` key: `a` precedes `b` when `k b ≤ k a`.
This is the order produced by the JS comparator
`(a, b) => key(b) - key(a)`. -/
def descBy (k : α → Nat) (a b : α) : Prop := k b ≤ k a

instance (k : α → Nat) : DecidableRel (descBy k) :=
  fun a b => inferInstanceAs (Decidable (k b ≤ k a))

instance (k : α → Nat) : IsTotal α (descBy k) :=
  ⟨fun a b => (Nat.le_total (k b) (k a)).elim Or.inl Or.inr⟩

instance (k : α → Nat) : IsTrans α (descBy k) :=
  ⟨fun _ _ _ h1 h2 => Nat.le_trans h2 h1⟩

/-- Sort key of a reply: its `createdAt` (a stored reply always has one;
`getD 0` resolves the comparator on an absent timestamp). -/
def replyKey (r : Reply) : Nat := r.createdAt.getD 0

/-- `post.replies.sort((a, b) => b.createdAt - a.createdAt)`. -/
def sortReplies (l : List Reply) : List Reply :=
  List.insertionSort (descBy replyKey) l

/-- `.sort(\x7b createdAt: -1 \x7d)` on a list of posts. -/
def sortPostsDesc (l : List Post) : List Post :=
  List.insertionSort (descBy Post.createdAt) l

/-- Descending order on `Nat` timestamps: `a` precedes `b` when
`b ≤ a`. -/
def natDescRel (a b : Nat) : Prop := b ≤ a

instance : IsAntisymm Nat natDescRel :=
  ⟨fun _ _ h1 h2 => Nat.le_antisymm h2 h1⟩

/-! ## createPost -/

/-- Outcome of `createPost`, mirroring the HTTP responses:
400 for invalid input, 404 for unknown user, 401 for an authorship
mismatch, 500 when the blob upload throws, 201 with the new post. -/
inductive CreateResult where
  | invalidInput (msg : String)
  | notFound
  | unauthorized
  | storageError
  | created (p : Post)
  deriving Repr, DecidableEq

/-- Whether a `CreateResult` is an `InvalidInput` failure (HTTP 400). -/
def CreateResult.isInvalidInput : CreateResult → Bool
  | .invalidInput _ => true
  | _ => false

/-- Whether a `CreateResult` is a success (HTTP 201). -/
def CreateResult.isCreated : CreateResult → Bool
  | .created _ => true
  | _ => false

/-- Full outcome of a create request: the response, the post store after
the request, and how many blob-store uploads were issued. -/
structure CreateOutcome where
  result : CreateResult
  store : Store
  blobUploads : Nat
  deriving Repr, DecidableEq

/-- Modelled from the spec: the `Post` mongoose schema (`postModel.js`,
not under `src/`) — `new Post(\x7b postedBy, text, img \x7d)` receives the
schema defaults `likes = []` and `replies = []` and a system-assigned
`createdAt`; the store assigns the `_id`. -/
def newPostDoc (pid pb : Nat) (text : String) (img : Option String)
    (now : Nat) : Post :=
  { id := pid, postedBy := pb, text := text, img := img,
    likes := [], replies := [], createdAt := now }

/-- `createPost` from `src/controllers/postController.js`:
checks `!postedBy || !text`, resolves `postedBy` via `User.findById`,
rejects `user._id !== req.user._id`, rejects `text.length > 500`,
uploads `img` to the blob store when present (a throw becomes a 500),
then saves `new Post(\x7b postedBy, text, img \x7d)`.
`users` is the user collaborator, `callerId` is `req.user._id`,
`upload` is the blob store (`none` = the upload throws), `pid`/`now` are
the id and timestamp the store assigns. -/
def createPost (users : List User) (store : Store) (callerId : Nat)
    (postedBy : Option Nat) (text : Option String) (img : Option String)
    (upload : String → Option String) (pid now : Nat) : CreateOutcome :=
  if postedBy.isNone || optStrFalsy text then
    ⟨.invalidInput "Please fill all the fields", store, 0⟩
  else
    let pb := postedBy.getD 0
    let t := text.getD ""
    match users.find? (fun u => u.id == pb) with
    | none => ⟨.notFound, store, 0⟩
    | some user =>
      if user.id ≠ callerId then
        ⟨.unauthorized, store, 0⟩
      else if t.length > 500 then
        ⟨.invalidInput "Text length should be less than 500 characters",
          store, 0⟩
      else
        match img with
        | none =>
          let p := newPostDoc pid pb t none now
          ⟨.created p, store ++ [p], 0⟩
        | some raw =>
          match upload raw with
          | none => ⟨.storageError, store, 1⟩
          | some url =>
            let p := newPostDoc pid pb t (some url) now
            ⟨.created p, store ++ [p], 1⟩

/-! ## deletePost -/

/-- Outcome code of `deletePost`: 404, 401, 500 (blob destroy threw),
or 200. -/
inductive DeleteResult where
  | notFound
  | unauthorized
  | storageError
  | deleted
  deriving Repr, DecidableEq

/-- Full outcome of a delete request: the response, the post store after
the request, and the list of object ids for which a blob-store destroy
call was issued (in order). -/
structure DeleteOutcome where
  result : DeleteResult
  store : Store
  blobDeletes : List String
  deriving Repr, DecidableEq

/-- JS `String.prototype.split` with a one-character separator, on the
character list: `split` never returns an empty list, and adjacent or
trailing separators produce empty segments, as in JS. -/
def splitOnChar (sep : Char) : List Char → List (List Char)
  | [] => [[]]
  | c :: cs =>
    let r := splitOnChar sep cs
    if c = sep then [] :: r
    else
      match r with
      | [] => [[c]]
      | h :: t => (c :: h) :: t

/-- `post.img.split('/').pop().split('.')[0]`: the portion of the last
URL path segment before its first dot. -/
def imgId (url : String) : String :=
  String.mk ((splitOnChar '.'
    ((splitOnChar '/' url.toList).getLastD [])).headD [])

/-- Modelled from the spec: the object identifier the spec describes —
"the stored URL's filename segment without extension", i.e. the last URL
path segment with its final `.ext` removed (unchanged when the segment
has no dot). -/
def specObjectId (url : String) : String :=
  let seg := (splitOnChar '/' url.toList).getLastD []
  let parts := splitOnChar '.' seg
  if parts.length ≤ 1 then String.mk seg
  else String.mk (List.intercalate ['.'] parts.dropLast)

/-- `deletePost` from `src/controllers/postController.js`:
`Post.findById`, 404 when absent, 401 when `post.postedBy !== req.user._id`,
then, when `post.img` is present, `cloudinary.uploader.destroy(imgId)` —
a throw is caught and becomes a 500, and `Post.findByIdAndDelete` is then
never reached — and finally `Post.findByIdAndDelete(id)`.
`destroyOk` is the blob store: whether destroying a given object id
succeeds. -/
def deletePost (store : Store) (callerId pid : Nat)
    (destroyOk : String → Bool) : DeleteOutcome :=
  match findPost store pid with
  | none => ⟨.notFound, store, []⟩
  | some post =>
    if post.postedBy ≠ callerId then
      ⟨.unauthorized, store, []⟩
    else
      match post.img with
      | none => ⟨.deleted, store.filter (fun q => q.id ≠ pid), []⟩
      | some url =>
        let oid := imgId url
        if destroyOk oid then
          ⟨.deleted, store.filter (fun q => q.id ≠ pid), [oid]⟩
        else
          ⟨.storageError, store, [oid]⟩

/-! ## likeUnlikePost -/

/-- Outcome of `likeUnlikePost`: 404, or 200 with the message telling
which action occurred. -/
inductive LikeResult where
  | notFound
  | liked
  | unliked
  deriving Repr, DecidableEq

/-- The effect of `$pull: \x7b likes: userId \x7d` on one document:
remove every occurrence of `c` from the `likes` array. -/
def pullLike (c : Nat) (q : Post) : Post :=
  { q with likes := q.likes.filter (fun u => u ≠ c) }

/-- `likeUnlikePost` from `src/controllers/postController.js`:
`Post.findById`, 404 when absent; when `post.likes.includes(userId)`,
`Post.updateOne(\x7b _id \x7d, \x7b $pull: \x7b likes: userId \x7d \x7d)`
(an atomic targeted update removing every occurrence); otherwise
`post.likes.push(userId)` followed by `post.save()` (a whole-document
overwrite with the mutated in-memory copy). -/
def likeUnlikePost (store : Store) (callerId pid : Nat) :
    LikeResult × Store :=
  match findPost store pid with
  | none => (.notFound, store)
  | some post =>
    if post.likes.contains callerId then
      (.unliked,
        store.map (fun q => if q.id = pid then pullLike callerId q else q))
    else
      (.liked, saveDoc store { post with likes := post.likes ++ [callerId] })

/-! ## replyToPost -/

/-- Outcome of `replyToPost`: 400 on empty text, 404, or 200 with the
reply object the controller returns. -/
inductive ReplyResult where
  | invalidInput
  | notFound
  | ok (r : Reply)
  deriving Repr, DecidableEq

/-- The plain reply object the controller builds:
`\x7b userId, text, userProfilePic, username \x7d` — no `createdAt`
field. -/
def mkReply (caller : User) (text : String) : Reply :=
  { userId := caller.id, username := caller.username,
    userProfilePic := caller.profilePicture, text := text,
    createdAt := none }

/-- The copy of the reply object stored inside the post: the plain
object plus the system-assigned `createdAt` (modelled from the spec: the
`Reply` schema in `postModel.js`, not under `src/`, assigns `createdAt`
at insertion). -/
def storedReply (caller : User) (text : String) (now : Nat) : Reply :=
  { mkReply caller text with createdAt := some now }

/-- The post after `replies.unshift(reply)` followed by
`replies.sort((a, b) => b.createdAt - a.createdAt)`. -/
def afterReply (p : Post) (caller : User) (text : String) (now : Nat) :
    Post :=
  { p with replies := sortReplies (storedReply caller text now
      :: p.replies) }

/-- `replyToPost` from `src/controllers/postController.js`:
400 when `!text`, `Post.findById`, 404 when absent; builds the reply
object, `post.replies.unshift(reply)`,
`post.replies.sort((a, b) => b.createdAt - a.createdAt)`, `post.save()`,
and returns the plain reply object.  The stored copy's `createdAt` is
modelled from the spec: the `Reply` schema (`postModel.js`, not under
`src/`) system-assigns `createdAt` at insertion, here the clock value
`now`. -/
def replyToPost (store : Store) (caller : User) (pid : Nat)
    (text : String) (now : Nat) : ReplyResult × Store :=
  if text.isEmpty then (.invalidInput, store)
  else
    match findPost store pid with
    | none => (.notFound, store)
    | some post =>
      (.ok (mkReply caller text),
       saveDoc store (afterReply post caller text now))

/-! ## getFeedPosts -/

/-- `getFeedPosts` from `src/controllers/postController.js`:
`User.findById(req.user._id)`, 404 when absent (`none` here); then
`Post.find(\x7b postedBy: \x7b $in: following \x7d \x7d)` sorted by
`createdAt` descending. -/
def getFeedPosts (users : List User) (store : Store) (callerId : Nat) :
    Option (List Post) :=
  match users.find? (fun u => u.id == callerId) with
  | none => none
  | some user =>
    some (sortPostsDesc
      (store.filter (fun p => user.following.contains p.postedBy)))

/-- The blob store succeeds on the request's image (vacuously true when
the request has no image): the environment assumption under which a
create request can reach persistence. -/
def uploadOk (img : Option String) (upload : String → Option String) :
    Prop :=
  ∀ raw, img = some raw → (upload raw).isSome

/-! ## Store lemmas -/

/-- A post found by `findPost` has the id it was looked up by. -/
theorem findPost_id (store : Store) (pid : Nat) (p : Post)
    (h : findPost store pid = some p) : p.id = pid := by
  unfold findPost at h
  have := List.find?_some h
  simpa using this

/-- Looking up `pid` after a pointwise update keyed on `pid` finds the
updated document. -/
theorem findPost_update (store : Store) (pid : Nat) (f : Post → Post)
    (hf : ∀ q, q.id = pid → (f q).id = pid) :
    findPost (store.map (fun q => if q.id = pid then f q else q)) pid
      = (findPost store pid).map f := by
  induction store with
  | nil => rfl
  | cons q rest ih =>
    by_cases h : q.id = pid
    · simp [findPost, List.find?, h, hf q h]
    · simp only [findPost, List.map_cons, List.find?] at ih ⊢
      simp only [if_neg h]
      rw [show ((q.id == pid) = false) from by simpa using h]
      exact ih

/-- Looking up `pid` after saving a document whose id is `pid` finds the
saved copy, provided a document with that id was present. -/
theorem findPost_saveDoc (store : Store) (pid : Nat) (p q : Post)
    (h : findPost store pid = some p) (hid : q.id = pid) :
    findPost (saveDoc store q) pid = some q := by
  unfold saveDoc
  rw [hid]
  rw [findPost_update store pid (fun _ => q) (fun _ _ => hid), h]
  rfl

/-! ## Claim theorems -/

/-- **C7.** For every existing post and every caller with
`callerId ≠ post.postedBy`, `deletePost` fails `Unauthorized`, the post
store is unchanged (no store deletion) and no blob-store delete is
issued. -/
theorem deletePost_nonowner_unauthorized (store : Store)
    (callerId pid : Nat) (destroyOk : String → Bool) (p : Post)
    (hfind : findPost store pid = some p)
    (hown : p.postedBy ≠ callerId) :
    deletePost store callerId pid destroyOk
      = ⟨.unauthorized, store, []⟩ := by
  unfold deletePost
  rw [hfind]
  simp [hown]

/-- Witness for C7 at a concrete input: post 5 owned by user 1, caller 2. -/
theorem deletePost_nonowner_unauthorized_witness :
    deletePost [⟨5, 1, "hello", some "c/a.png", [9], [], 0⟩] 2 5
        (fun _ => true)
      = ⟨.unauthorized, [⟨5, 1, "hello", some "c/a.png", [9], [], 0⟩], []⟩ :=
  deletePost_nonowner_unauthorized _ 2 5 _
    ⟨5, 1, "hello", some "c/a.png", [9], [], 0⟩ rfl (by decide)

/-- On an existing post already liked by `c`, `likeUnlikePost` takes the
unlike branch: the `$pull` update. -/
theorem likeUnlikePost_member (store : Store) (c pid : Nat) (p : Post)
    (hfind : findPost store pid = some p) (hmem : c ∈ p.likes) :
    likeUnlikePost store c pid
      = (.unliked,
          store.map (fun q => if q.id = pid then pullLike c q else q)) := by
  unfold likeUnlikePost
  rw [hfind]
  simp [hmem]

/-- On an existing post not yet liked by `c`, `likeUnlikePost` takes the
like branch: push then save. -/
theorem likeUnlikePost_nonmember (store : Store) (c pid : Nat) (p : Post)
    (hfind : findPost store pid = some p) (hmem : c ∉ p.likes) :
    likeUnlikePost store c pid
      = (.liked, saveDoc store { p with likes := p.likes ++ [c] }) := by
  unfold likeUnlikePost
  rw [hfind]
  simp [hmem]

/-- Looking up `pid` after the `$pull` update finds the pulled document. -/
theorem findPost_pull (store : Store) (c pid : Nat) :
    findPost (store.map (fun q => if q.id = pid then pullLike c q else q)) pid
      = (findPost store pid).map (pullLike c) :=
  findPost_update store pid (pullLike c) (fun _ hq => hq)

/-- **C2.** For every post and every user, a sequential like followed by
an unlike via `likeUnlikePost` leaves the post's `likes` membership
exactly equal to its pre-like membership.  (`hnot` states that the first
call is the like.) -/
theorem likeUnlike_roundtrip (store : Store) (c pid : Nat) (p : Post)
    (hfind : findPost store pid = some p)
    (hnot : c ∉ p.likes) :
    ∃ p', findPost (likeUnlikePost (likeUnlikePost store c pid).2 c pid).2 pid
        = some p'
      ∧ ∀ u, u ∈ p'.likes ↔ u ∈ p.likes := by
  have hid : p.id = pid := findPost_id store pid p hfind
  have e1 : (likeUnlikePost store c pid).2
      = saveDoc store { p with likes := p.likes ++ [c] } := by
    rw [likeUnlikePost_nonmember store c pid p hfind hnot]
  rw [e1]
  have hfind1 :
      findPost (saveDoc store { p with likes := p.likes ++ [c] }) pid
        = some { p with likes := p.likes ++ [c] } :=
    findPost_saveDoc store pid p _ hfind hid
  have hmem1 : c ∈ ({ p with likes := p.likes ++ [c] } : Post).likes := by
    simp
  have e2 : (likeUnlikePost
        (saveDoc store { p with likes := p.likes ++ [c] }) c pid).2
      = (saveDoc store { p with likes := p.likes ++ [c] }).map
          (fun q => if q.id = pid then pullLike c q else q) := by
    rw [likeUnlikePost_member _ c pid _ hfind1 hmem1]
  rw [e2, findPost_pull, hfind1]
  refine ⟨pullLike c { p with likes := p.likes ++ [c] }, rfl, ?_⟩
  intro u
  have hfeq : (p.likes ++ [c]).filter (fun u => u ≠ c) = p.likes := by
    rw [List.filter_append]
    have h1 : p.likes.filter (fun u => u ≠ c) = p.likes := by
      refine List.filter_eq_self.2 ?_
      intro a ha
      simp only [ne_eq, decide_eq_true_eq]
      exact fun h => hnot (h ▸ ha)
    have h2 : ([c] : List Nat).filter (fun u => u ≠ c) = [] := by simp
    rw [h1, h2, List.append_nil]
  show u ∈ (p.likes ++ [c]).filter (fun u => u ≠ c) ↔ u ∈ p.likes
  rw [hfeq]

/-- Witness for C2 at a concrete input: post 5 with likes `[9]`, user 2
likes then unlikes; membership returns to `[9]`'s. -/
theorem likeUnlike_roundtrip_witness :
    ∃ p', findPost
        (likeUnlikePost
          (likeUnlikePost [⟨5, 1, "hello", none, [9], [], 0⟩] 2 5).2 2 5).2 5
        = some p'
      ∧ ∀ u, u ∈ p'.likes ↔ u ∈ ([9] : List Nat) := by
  have h := likeUnlike_roundtrip [⟨5, 1, "hello", none, [9], [], 0⟩] 2 5
    ⟨5, 1, "hello", none, [9], [], 0⟩ rfl (by decide)
  simpa using h

/-- **C3.** After any `likeUnlikePost` on an existing post, the post's
`likes` array contains the calling user at most once; and when the user
was already a member the call removes the membership entirely, so it
never produces a duplicate entry. -/
theorem likeUnlike_no_duplicate (store : Store) (c pid : Nat) (p : Post)
    (hfind : findPost store pid = some p) :
    ∃ p', findPost (likeUnlikePost store c pid).2 pid = some p'
      ∧ p'.likes.count c ≤ 1
      ∧ (c ∈ p.likes → p'.likes.count c = 0) := by
  have hid : p.id = pid := findPost_id store pid p hfind
  by_cases hmem : c ∈ p.likes
  · -- already a member: the `$pull` removes every occurrence
    have e : (likeUnlikePost store c pid).2
        = store.map (fun q => if q.id = pid then pullLike c q else q) := by
      rw [likeUnlikePost_member store c pid p hfind hmem]
    have hzero : (p.likes.filter (fun u => u ≠ c)).count c = 0 :=
      List.count_eq_zero.2 (by simp)
    refine ⟨pullLike c p, ?_, ?_, fun _ => hzero⟩
    · rw [e, findPost_pull, hfind]
      rfl
    · exact le_trans (Nat.le_of_eq hzero) (Nat.zero_le 1)
  · -- not a member: the push adds exactly one occurrence
    have e : (likeUnlikePost store c pid).2
        = saveDoc store { p with likes := p.likes ++ [c] } := by
      rw [likeUnlikePost_nonmember store c pid p hfind hmem]
    refine ⟨{ p with likes := p.likes ++ [c] }, ?_, ?_,
      fun h => absurd h hmem⟩
    · rw [e]
      exact findPost_saveDoc store pid p _ hfind hid
    · show (p.likes ++ [c]).count c ≤ 1
      rw [List.count_append, List.count_eq_zero.2 hmem]
      simp

/-- Witness for C3 at a concrete input: post 5 already liked by user 2. -/
theorem likeUnlike_no_duplicate_witness :
    ∃ p', findPost (likeUnlikePost [⟨5, 1, "hello", none, [2], [], 0⟩] 2 5).2 5
        = some p'
      ∧ p'.likes.count 2 ≤ 1
      ∧ (2 ∈ ([2] : List Nat) → p'.likes.count 2 = 0) := by
  have h := likeUnlike_no_duplicate [⟨5, 1, "hello", none, [2], [], 0⟩] 2 5
    ⟨5, 1, "hello", none, [2], [], 0⟩ rfl
  simpa using h

/-- **C6.** For every caller whose user record exists with following set
`F`, `getFeedPosts` returns exactly the posts whose `postedBy` is in `F`
(a permutation of the filtered store, hence every such post and no
other), sorted by `createdAt` descending. -/
theorem getFeedPosts_spec (users : List User) (store : Store)
    (callerId : Nat) (u : User)
    (hfind : users.find? (fun x => x.id == callerId) = some u) :
    ∃ l, getFeedPosts users store callerId = some l
      ∧ List.Perm l
          (store.filter (fun p => u.following.contains p.postedBy))
      ∧ (∀ p, p ∈ l ↔ p ∈ store ∧ p.postedBy ∈ u.following)
      ∧ l.Sorted (descBy Post.createdAt) := by
  refine ⟨sortPostsDesc
      (store.filter (fun p => u.following.contains p.postedBy)),
    ?_, ?_, ?_, ?_⟩
  · unfold getFeedPosts
    rw [hfind]
  · exact List.perm_insertionSort _ _
  · intro p
    unfold sortPostsDesc
    rw [List.Perm.mem_iff (List.perm_insertionSort _ _)]
    simp [List.mem_filter]
  · exact List.sorted_insertionSort _ _

/-- Witness for C6 at a concrete input: caller 1 follows users 2 and 3;
the store holds posts by 2, 4 and 3. -/
theorem getFeedPosts_spec_witness :
    ∃ l, getFeedPosts [⟨1, "a", "", [2, 3]⟩]
        [⟨10, 2, "x", none, [], [], 5⟩, ⟨11, 4, "y", none, [], [], 7⟩,
          ⟨12, 3, "z", none, [], [], 9⟩] 1 = some l
      ∧ List.Perm l
          (List.filter
            (fun p => (([2, 3] : List Nat)).contains p.postedBy)
            [⟨10, 2, "x", none, [], [], 5⟩, ⟨11, 4, "y", none, [], [], 7⟩,
              ⟨12, 3, "z", none, [], [], 9⟩])
      ∧ (∀ p, p ∈ l ↔
          p ∈ [⟨10, 2, "x", none, [], [], 5⟩,
            ⟨11, 4, "y", none, [], [], 7⟩, ⟨12, 3, "z", none, [], [], 9⟩]
          ∧ p.postedBy ∈ ([2, 3] : List Nat))
      ∧ l.Sorted (descBy Post.createdAt) :=
  getFeedPosts_spec [⟨1, "a", "", [2, 3]⟩]
    [⟨10, 2, "x", none, [], [], 5⟩, ⟨11, 4, "y", none, [], [], 7⟩,
      ⟨12, 3, "z", none, [], [], 9⟩] 1 ⟨1, "a", "", [2, 3]⟩ rfl

/-- **C4 counterexample.** A request with `postedBy` present and
resolving, `callerId = postedBy`, but empty `text`: `createPost` fails
`InvalidInput` (the `!postedBy || !text` check) although
`text.length = 0 ≤ 500`, so "fails `InvalidInput` iff
`text.length > 500`" is false. -/
theorem createPost_C4_counterexample :
    (List.find? (fun x => x.id == 1) [⟨1, "alice", "", []⟩]
        = some (⟨1, "alice", "", []⟩ : User))
    ∧ (createPost [⟨1, "alice", "", []⟩] [] 1 (some 1) (some "") none
        (fun r => some r) 7 0).result.isInvalidInput = true
    ∧ ¬ (500 < ("" : String).length) := by
  refine ⟨rfl, rfl, by decide⟩

/-- **C4 (amended).** For every create request with `postedBy` present
and resolving, `callerId = postedBy` and a *non-empty* `text`:
`createPost` fails `InvalidInput` iff `text.length > 500`; on that
failure the store is unchanged and no blob upload occurs; and with
`text.length ≤ 500` (in particular exactly 500) and a functioning blob
store the request succeeds. -/
theorem createPost_length_check (users : List User) (store : Store)
    (callerId pb : Nat) (t : String) (img : Option String)
    (upload : String → Option String) (pid now : Nat) (u : User)
    (hfind : users.find? (fun x => x.id == pb) = some u)
    (hcaller : pb = callerId)
    (ht : t.isEmpty = false) :
    ((createPost users store callerId (some pb) (some t) img upload
        pid now).result.isInvalidInput = true ↔ 500 < t.length)
    ∧ (500 < t.length →
        (createPost users store callerId (some pb) (some t) img upload
          pid now).store = store
        ∧ (createPost users store callerId (some pb) (some t) img upload
          pid now).blobUploads = 0)
    ∧ (t.length ≤ 500 → uploadOk img upload →
        (createPost users store callerId (some pb) (some t) img upload
          pid now).result.isCreated = true) := by
  have hu : u.id = pb := by
    have := List.find?_some hfind
    simpa using this
  have hne : ¬ u.id ≠ callerId := by
    rw [hu, hcaller]
    exact fun h => h rfl
  unfold createPost
  simp only [Option.isNone_some, optStrFalsy, ht, Bool.or_self,
    Bool.false_or, Bool.or_false, if_neg (by simp : ¬ (false = true)),
    Option.getD_some]
  rw [hfind]
  simp only [if_neg hne]
  by_cases hlen : 500 < t.length
  · simp [hlen, CreateResult.isInvalidInput]
  · rw [if_neg hlen]
    refine ⟨?_, fun h => absurd h hlen, ?_⟩
    · cases img with
      | none => simpa [CreateResult.isInvalidInput] using hlen
      | some raw =>
        cases hup : upload raw with
        | none => simpa [hup, CreateResult.isInvalidInput] using hlen
        | some url => simpa [hup, CreateResult.isInvalidInput] using hlen
    · intro _ huo
      cases img with
      | none => simp [CreateResult.isCreated]
      | some raw =>
        have : (upload raw).isSome := huo raw rfl
        cases hup : upload raw with
        | none => rw [hup] at this; exact absurd this (by simp)
        | some url => simp [hup, CreateResult.isCreated]

/-- Witness for C4 (amended) at a concrete input: user 1 creates a post
with a one-character text and no image. -/
theorem createPost_length_check_witness :
    ((createPost [⟨1, "alice", "", []⟩] [] 1 (some 1) (some "x") none
        (fun r => some r) 7 0).result.isInvalidInput = true
      ↔ 500 < ("x" : String).length)
    ∧ (500 < ("x" : String).length →
        (createPost [⟨1, "alice", "", []⟩] [] 1 (some 1) (some "x") none
          (fun r => some r) 7 0).store = []
        ∧ (createPost [⟨1, "alice", "", []⟩] [] 1 (some 1) (some "x") none
          (fun r => some r) 7 0).blobUploads = 0)
    ∧ (("x" : String).length ≤ 500 →
        uploadOk none (fun r => some r) →
        (createPost [⟨1, "alice", "", []⟩] [] 1 (some 1) (some "x") none
          (fun r => some r) 7 0).result.isCreated = true) :=
  createPost_length_check [⟨1, "alice", "", []⟩] [] 1 1 "x" none
    (fun r => some r) 7 0 ⟨1, "alice", "", []⟩ rfl rfl rfl

/-- **C5 counterexample.** A request where `postedBy` is present and
resolves to an existing user, `callerId ≠ postedBy`, but `text` is
empty: `createPost` fails `InvalidInput` (the first check), not
`Unauthorized`. -/
theorem createPost_C5_counterexample :
    (List.find? (fun x => x.id == 1) [⟨1, "alice", "", []⟩]
        = some (⟨1, "alice", "", []⟩ : User))
    ∧ (2 ≠ 1)
    ∧ (createPost [⟨1, "alice", "", []⟩] [] 2 (some 1) (some "") none
        (fun r => some r) 7 0).result.isInvalidInput = true
    ∧ (createPost [⟨1, "alice", "", []⟩] [] 2 (some 1) (some "") none
        (fun r => some r) 7 0).result ≠ CreateResult.unauthorized := by
  refine ⟨rfl, by decide, rfl, by decide⟩

/-- **C5 (amended).** For every create request where `postedBy` is
present and resolves to an existing user, `text` is present and
non-empty, and `callerId ≠ postedBy`: `createPost` fails `Unauthorized`,
the store is unchanged and no blob upload occurs. -/
theorem createPost_nonself_unauthorized (users : List User)
    (store : Store) (callerId pb : Nat) (t : String) (img : Option String)
    (upload : String → Option String) (pid now : Nat) (u : User)
    (hfind : users.find? (fun x => x.id == pb) = some u)
    (hcaller : pb ≠ callerId)
    (ht : t.isEmpty = false) :
    createPost users store callerId (some pb) (some t) img upload pid now
      = ⟨.unauthorized, store, 0⟩ := by
  have hu : u.id = pb := by
    have := List.find?_some hfind
    simpa using this
  unfold createPost
  simp only [Option.isNone_some, optStrFalsy, ht, Bool.or_self,
    Bool.false_or, Bool.or_false, if_neg (by simp : ¬ (false = true)),
    Option.getD_some]
  rw [hfind]
  have hne : u.id ≠ callerId := by
    rw [hu]
    exact hcaller
  simp [hne]

/-- Witness for C5 (amended) at a concrete input: caller 2 tries to
create a post as user 1. -/
theorem createPost_nonself_unauthorized_witness :
    createPost [⟨1, "alice", "", []⟩] [] 2 (some 1) (some "hi") none
        (fun r => some r) 7 0
      = ⟨.unauthorized, [], 0⟩ :=
  createPost_nonself_unauthorized [⟨1, "alice", "", []⟩] [] 2 1 "hi" none
    (fun r => some r) 7 0 ⟨1, "alice", "", []⟩ rfl (by decide) rfl

/-- **C8.** For every valid create request (`callerId = postedBy`,
`postedBy` resolves to an existing user, `1 ≤ text.length ≤ 500`, and
the blob store does not fail on the request's image), `createPost`
succeeds and the returned `Post` has empty `likes` and empty `replies`.
The defaults come from the `Post` schema, modelled from the spec. -/
theorem createPost_defaults (users : List User) (store : Store)
    (callerId pb : Nat) (t : String) (img : Option String)
    (upload : String → Option String) (pid now : Nat) (u : User)
    (hfind : users.find? (fun x => x.id == pb) = some u)
    (hcaller : pb = callerId)
    (hlen1 : 1 ≤ t.length) (hlen2 : t.length ≤ 500)
    (hup : uploadOk img upload) :
    ∃ p, (createPost users store callerId (some pb) (some t) img upload
        pid now).result = .created p
      ∧ p.likes = [] ∧ p.replies = [] := by
  have hu : u.id = pb := by
    have := List.find?_some hfind
    simpa using this
  have ht : t.isEmpty = false := by
    cases h : t.isEmpty
    · rfl
    · exfalso
      have he : t = "" := (String.isEmpty_iff t).1 (by rw [h])
      subst he
      exact absurd hlen1 (by decide)
  have hne : ¬ u.id ≠ callerId := by
    rw [hu, hcaller]
    exact fun h => h rfl
  have hlen : ¬ 500 < t.length := by omega
  unfold createPost
  simp only [Option.isNone_some, optStrFalsy, ht, Bool.or_self,
    Bool.false_or, Bool.or_false, if_neg (by simp : ¬ (false = true)),
    Option.getD_some]
  rw [hfind]
  simp only [if_neg hne, if_neg hlen]
  cases img with
  | none => exact ⟨newPostDoc pid pb t none now, rfl, rfl, rfl⟩
  | some raw =>
    have : (upload raw).isSome := hup raw rfl
    cases hupload : upload raw with
    | none => rw [hupload] at this; exact absurd this (by simp)
    | some url =>
      exact ⟨newPostDoc pid pb t (some url) now, by simp [hupload], rfl,
        rfl⟩

/-- Witness for C8 at a concrete input: user 1 creates a post with text
`"hi"` and an image; the blob store succeeds. -/
theorem createPost_defaults_witness :
    ∃ p, (createPost [⟨1, "alice", "", []⟩] [] 1 (some 1) (some "hi")
        (some "raw") (fun r => some r) 7 0).result = .created p
      ∧ p.likes = [] ∧ p.replies = [] :=
  createPost_defaults [⟨1, "alice", "", []⟩] [] 1 1 "hi" (some "raw")
    (fun r => some r) 7 0 ⟨1, "alice", "", []⟩ rfl rfl (by decide)
    (by decide) (fun raw h => by simp)

/-- **C10 counterexample.** For a media URL whose filename has two dots,
the code derives the object id `split('.')[0]` — the part before the
*first* dot — not the segment stripped of its extension: for
`"c/a.b.png"` the issued blob delete names `"a"` while the
extension-stripped segment is `"a.b"`. -/
theorem deletePost_C10_counterexample :
    (deletePost [⟨5, 1, "t", some "c/a.b.png", [], [], 0⟩] 1 5
        (fun _ => true)).blobDeletes = ["a"]
    ∧ specObjectId "c/a.b.png" = "a.b"
    ∧ ("a" : String) ≠ "a.b" := by
  refine ⟨rfl, rfl, by decide⟩

/-- **C10 (amended).** For every existing post with media whose caller
is the owner, `deletePost` issues exactly one blob delete, for the
portion of the last URL path segment before its first dot, before
deleting the record: when the blob delete fails the result is
`StorageError` and the post record is not deleted; when it succeeds the
record is removed. -/
theorem deletePost_owner_blob_first (store : Store) (callerId pid : Nat)
    (destroyOk : String → Bool) (p : Post) (url : String)
    (hfind : findPost store pid = some p)
    (hown : p.postedBy = callerId)
    (himg : p.img = some url) :
    (deletePost store callerId pid destroyOk).blobDeletes = [imgId url]
    ∧ (destroyOk (imgId url) = false →
        (deletePost store callerId pid destroyOk).result = .storageError
        ∧ (deletePost store callerId pid destroyOk).store = store)
    ∧ (destroyOk (imgId url) = true →
        (deletePost store callerId pid destroyOk).result = .deleted
        ∧ (deletePost store callerId pid destroyOk).store
            = store.filter (fun q => q.id ≠ pid)) := by
  have hno : ¬ (p.postedBy ≠ callerId) := fun h => h hown
  unfold deletePost
  rw [hfind]
  simp only [if_neg hno, himg]
  cases hd : destroyOk (imgId url) with
  | false => simp [hd]
  | true => simp [hd]

/-- Witness for C10 (amended) at a concrete input: owner 1 deletes post
5 with media `"c/a.png"`; the blob store fails, so the record stays. -/
theorem deletePost_owner_blob_first_witness :
    (deletePost [⟨5, 1, "t", some "c/a.png", [], [], 0⟩] 1 5
        (fun _ => false)).blobDeletes = [imgId "c/a.png"]
    ∧ ((fun _ => false : String → Bool) (imgId "c/a.png") = false →
        (deletePost [⟨5, 1, "t", some "c/a.png", [], [], 0⟩] 1 5
          (fun _ => false)).result = .storageError
        ∧ (deletePost [⟨5, 1, "t", some "c/a.png", [], [], 0⟩] 1 5
          (fun _ => false)).store
            = [⟨5, 1, "t", some "c/a.png", [], [], 0⟩])
    ∧ ((fun _ => false : String → Bool) (imgId "c/a.png") = true →
        (deletePost [⟨5, 1, "t", some "c/a.png", [], [], 0⟩] 1 5
          (fun _ => false)).result = .deleted
        ∧ (deletePost [⟨5, 1, "t", some "c/a.png", [], [], 0⟩] 1 5
          (fun _ => false)).store
            = List.filter (fun q => q.id ≠ 5)
                [⟨5, 1, "t", some "c/a.png", [], [], 0⟩]) :=
  deletePost_owner_blob_first [⟨5, 1, "t", some "c/a.png", [], [], 0⟩] 1 5
    (fun _ => false) ⟨5, 1, "t", some "c/a.png", [], [], 0⟩ "c/a.png"
    rfl rfl rfl

/-- On an existing post with non-empty reply text, `replyToPost` builds
the plain reply object, stores a copy with the system-assigned
`createdAt` at the front, re-sorts, saves, and returns the plain
object. -/
theorem replyToPost_found (store : Store) (caller : User) (pid : Nat)
    (text : String) (now : Nat) (p : Post)
    (ht : text.isEmpty = false)
    (hfind : findPost store pid = some p) :
    replyToPost store caller pid text now
      = (.ok (mkReply caller text),
         saveDoc store (afterReply p caller text now)) := by
  unfold replyToPost
  rw [if_neg (by simp [ht]), hfind]

/-- **C9 counterexample.** User 2 replies `"hi"` to post 5 at time 42:
the stored reply carries the system-assigned `createdAt = some 42`, but
the object the controller returns is the plain
`\x7b userId, text, userProfilePic, username \x7d` — with no
`createdAt`. -/
theorem replyToPost_C9_counterexample :
    (replyToPost [⟨5, 1, "hello", none, [], [], 0⟩] ⟨2, "bob", "bp", []⟩
        5 "hi" 42).1 = .ok ⟨2, "bob", "bp", "hi", none⟩
    ∧ findPost (replyToPost [⟨5, 1, "hello", none, [], [], 0⟩]
        ⟨2, "bob", "bp", []⟩ 5 "hi" 42).2 5
      = some ⟨5, 1, "hello", none, [],
          [⟨2, "bob", "bp", "hi", some 42⟩], 0⟩
    ∧ Reply.createdAt ⟨2, "bob", "bp", "hi", none⟩ = none
    ∧ (none : Option Nat) ≠ some 42 := by
  refine ⟨rfl, rfl, rfl, by decide⟩

/-- **C9 (amended).** For every reply request with non-empty text on an
existing post, `replyToPost` returns the created reply object: its
`userId`, `username` and `userProfilePic` equal the caller's current
identity snapshot and its `text` equals the request text; the copy
stored in the post carries the system-assigned `createdAt`, while the
returned object itself carries no `createdAt`. -/
theorem replyToPost_snapshot (store : Store) (caller : User) (pid : Nat)
    (text : String) (now : Nat) (p : Post)
    (ht : text.isEmpty = false)
    (hfind : findPost store pid = some p) :
    (replyToPost store caller pid text now).1 = .ok (mkReply caller text)
    ∧ (mkReply caller text).userId = caller.id
    ∧ (mkReply caller text).username = caller.username
    ∧ (mkReply caller text).userProfilePic = caller.profilePicture
    ∧ (mkReply caller text).text = text
    ∧ (mkReply caller text).createdAt = none
    ∧ ∃ p', findPost (replyToPost store caller pid text now).2 pid
          = some p'
        ∧ storedReply caller text now ∈ p'.replies := by
  have hid : p.id = pid := findPost_id store pid p hfind
  have e := replyToPost_found store caller pid text now p ht hfind
  refine ⟨by rw [e], rfl, rfl, rfl, rfl, rfl, ?_⟩
  refine ⟨afterReply p caller text now, ?_, ?_⟩
  · rw [e]
    exact findPost_saveDoc store pid p _ hfind hid
  · show storedReply caller text now
      ∈ sortReplies (storedReply caller text now :: p.replies)
    unfold sortReplies
    rw [List.Perm.mem_iff (List.perm_insertionSort _ _)]
    exact List.mem_cons_self _ _

/-- Witness for C9 (amended) at a concrete input: user 2 replies `"hi"`
to post 5 at time 42. -/
theorem replyToPost_snapshot_witness :
    (replyToPost [⟨5, 1, "hello", none, [], [], 0⟩] ⟨2, "bob", "bp", []⟩
        5 "hi" 42).1 = .ok (mkReply ⟨2, "bob", "bp", []⟩ "hi")
    ∧ (mkReply ⟨2, "bob", "bp", []⟩ "hi").userId
        = User.id ⟨2, "bob", "bp", []⟩
    ∧ (mkReply ⟨2, "bob", "bp", []⟩ "hi").username
        = User.username ⟨2, "bob", "bp", []⟩
    ∧ (mkReply ⟨2, "bob", "bp", []⟩ "hi").userProfilePic
        = User.profilePicture ⟨2, "bob", "bp", []⟩
    ∧ (mkReply ⟨2, "bob", "bp", []⟩ "hi").text = "hi"
    ∧ (mkReply ⟨2, "bob", "bp", []⟩ "hi").createdAt = none
    ∧ ∃ p', findPost (replyToPost [⟨5, 1, "hello", none, [], [], 0⟩]
          ⟨2, "bob", "bp", []⟩ 5 "hi" 42).2 5 = some p'
        ∧ storedReply ⟨2, "bob", "bp", []⟩ "hi" 42 ∈ p'.replies :=
  replyToPost_snapshot [⟨5, 1, "hello", none, [], [], 0⟩]
    ⟨2, "bob", "bp", []⟩ 5 "hi" 42 ⟨5, 1, "hello", none, [], [], 0⟩
    rfl rfl

/-- **C1.** After `replyToPost` completes on an existing post, the
post's `replies` sequence is sorted descending by `createdAt`; in
particular, for every post with no prior replies and every three replies
appended sequentially whose system-assigned creation times are
`t1 < t2 < t3` in any insertion order, the final `replies` sequence is
ordered `[t3, t2, t1]`. -/
theorem replyToPost_replies_sorted :
    (∀ (store : Store) (caller : User) (pid : Nat) (text : String)
        (now : Nat) (p : Post), text.isEmpty = false →
      findPost store pid = some p →
      ∃ p', findPost (replyToPost store caller pid text now).2 pid
          = some p'
        ∧ List.Sorted (descBy replyKey) p'.replies)
    ∧ (∀ (store : Store) (c1 c2 c3 : User) (pid : Nat)
        (w1 w2 w3 : String) (t1 t2 t3 u1 u2 u3 : Nat) (p : Post),
      w1.isEmpty = false → w2.isEmpty = false → w3.isEmpty = false →
      findPost store pid = some p → p.replies = [] →
      t1 < t2 → t2 < t3 →
      ((u1, u2, u3) = (t1, t2, t3) ∨ (u1, u2, u3) = (t1, t3, t2) ∨
        (u1, u2, u3) = (t2, t1, t3) ∨ (u1, u2, u3) = (t2, t3, t1) ∨
        (u1, u2, u3) = (t3, t1, t2) ∨ (u1, u2, u3) = (t3, t2, t1)) →
      ∃ p', findPost (replyToPost (replyToPost
            (replyToPost store c1 pid w1 u1).2 c2 pid w2 u2).2
            c3 pid w3 u3).2 pid = some p'
        ∧ List.map Reply.createdAt p'.replies
            = [some t3, some t2, some t1]) := by
  constructor
  · intro store caller pid text now p ht hfind
    have hid : p.id = pid := findPost_id store pid p hfind
    have e := replyToPost_found store caller pid text now p ht hfind
    refine ⟨afterReply p caller text now, ?_, ?_⟩
    · rw [e]
      exact findPost_saveDoc store pid p _ hfind hid
    · show List.Sorted (descBy replyKey)
        (sortReplies (storedReply caller text now :: p.replies))
      unfold sortReplies
      exact List.sorted_insertionSort _ _
  · intro store c1 c2 c3 pid w1 w2 w3 t1 t2 t3 u1 u2 u3 p h1 h2 h3
      hfind hrep h12 h23 hcases
    have hid : p.id = pid := findPost_id store pid p hfind
    have e1 := replyToPost_found store c1 pid w1 u1 p h1 hfind
    have hf1 : findPost (replyToPost store c1 pid w1 u1).2 pid
        = some (afterReply p c1 w1 u1) := by
      rw [e1]
      exact findPost_saveDoc store pid p _ hfind hid
    have hid1 : (afterReply p c1 w1 u1).id = pid := hid
    have e2 := replyToPost_found _ c2 pid w2 u2 _ h2 hf1
    have hf2 : findPost
        (replyToPost (replyToPost store c1 pid w1 u1).2 c2 pid w2 u2).2
          pid
        = some (afterReply (afterReply p c1 w1 u1) c2 w2 u2) := by
      rw [e2]
      exact findPost_saveDoc _ pid _ _ hf1 hid1
    have hid2 : (afterReply (afterReply p c1 w1 u1) c2 w2 u2).id
        = pid := hid
    have e3 := replyToPost_found _ c3 pid w3 u3 _ h3 hf2
    have hf3 : findPost (replyToPost (replyToPost
          (replyToPost store c1 pid w1 u1).2 c2 pid w2 u2).2
          c3 pid w3 u3).2 pid
        = some (afterReply (afterReply (afterReply p c1 w1 u1) c2 w2 u2)
            c3 w3 u3) := by
      rw [e3]
      exact findPost_saveDoc _ pid _ _ hf2 hid2
    refine ⟨_, hf3, ?_⟩
    set P3 : Post :=
      afterReply (afterReply (afterReply p c1 w1 u1) c2 w2 u2) c3 w3 u3
      with hP3
    have hL : P3.replies
        = sortReplies (storedReply c3 w3 u3
            :: sortReplies (storedReply c2 w2 u2
              :: sortReplies [storedReply c1 w1 u1])) := by
      show sortReplies (storedReply c3 w3 u3
          :: sortReplies (storedReply c2 w2 u2
            :: sortReplies (storedReply c1 w1 u1 :: p.replies))) = _
      rw [hrep]
    have hperm : List.Perm P3.replies
        [storedReply c3 w3 u3, storedReply c2 w2 u2,
          storedReply c1 w1 u1] := by
      rw [hL]
      refine (List.perm_insertionSort _ _).trans (List.Perm.cons _ ?_)
      refine (List.perm_insertionSort _ _).trans (List.Perm.cons _ ?_)
      exact List.perm_insertionSort _ _
    have hsorted : List.Sorted (descBy replyKey) P3.replies :=
      List.sorted_insertionSort _ _
    have hksorted : List.Sorted natDescRel
        (List.map replyKey P3.replies) :=
      List.pairwise_map.2 hsorted
    have hkeys : List.map replyKey
        [storedReply c3 w3 u3, storedReply c2 w2 u2,
          storedReply c1 w1 u1] = [u3, u2, u1] := rfl
    have hkperm : List.Perm (List.map replyKey P3.replies)
        [u3, u2, u1] := by
      have h := hperm.map replyKey
      rwa [hkeys] at h
    have hsome : ∀ x ∈ P3.replies,
        Reply.createdAt x = some (replyKey x) := by
      intro x hx
      have hx3 : x ∈ [storedReply c3 w3 u3, storedReply c2 w2 u2,
          storedReply c1 w1 u1] := hperm.mem_iff.1 hx
      rcases List.mem_cons.1 hx3 with rfl | hx3
      · rfl
      rcases List.mem_cons.1 hx3 with rfl | hx3
      · rfl
      rcases List.mem_cons.1 hx3 with rfl | hx3
      · rfl
      exact absurd hx3 (List.not_mem_nil x)
    have hfinal : ∀ v : List Nat, List.map replyKey P3.replies = v →
        List.map Reply.createdAt P3.replies = List.map some v := by
      intro v hv
      calc List.map Reply.createdAt P3.replies
          = List.map (fun x => some (replyKey x)) P3.replies :=
            List.map_congr_left hsome
        _ = List.map some (List.map replyKey P3.replies) := by
            rw [List.map_map]
            rfl
        _ = List.map some v := by rw [hv]
    have htarget : List.Sorted natDescRel [t3, t2, t1] := by
      refine List.Pairwise.cons ?_ (List.Pairwise.cons ?_
        (List.Pairwise.cons ?_ List.Pairwise.nil))
      · intro b hb
        rcases List.mem_cons.1 hb with rfl | hb
        · exact Nat.le_of_lt h23
        rcases List.mem_cons.1 hb with rfl | hb
        · exact Nat.le_of_lt (Nat.lt_trans h12 h23)
        exact absurd hb (List.not_mem_nil b)
      · intro b hb
        rcases List.mem_cons.1 hb with rfl | hb
        · exact Nat.le_of_lt h12
        exact absurd hb (List.not_mem_nil b)
      · intro b hb
        exact absurd hb (List.not_mem_nil b)
    have hkey3 : List.map replyKey P3.replies = [t3, t2, t1] := by
      rcases hcases with h | h | h | h | h | h
      · simp only [Prod.mk.injEq] at h
        rw [h.1, h.2.1, h.2.2] at hkperm
        exact List.eq_of_perm_of_sorted hkperm hksorted htarget
      · simp only [Prod.mk.injEq] at h
        rw [h.1, h.2.1, h.2.2] at hkperm
        exact List.eq_of_perm_of_sorted
          (hkperm.trans (List.Perm.swap t3 t2 [t1])) hksorted htarget
      · simp only [Prod.mk.injEq] at h
        rw [h.1, h.2.1, h.2.2] at hkperm
        exact List.eq_of_perm_of_sorted
          (hkperm.trans (List.Perm.cons t3 (List.Perm.swap t2 t1 [])))
          hksorted htarget
      · simp only [Prod.mk.injEq] at h
        rw [h.1, h.2.1, h.2.2] at hkperm
        exact List.eq_of_perm_of_sorted
          (hkperm.trans ((List.Perm.swap t3 t1 [t2]).trans
            (List.Perm.cons t3 (List.Perm.swap t2 t1 []))))
          hksorted htarget
      · simp only [Prod.mk.injEq] at h
        rw [h.1, h.2.1, h.2.2] at hkperm
        exact List.eq_of_perm_of_sorted
          (hkperm.trans ((List.Perm.cons t2
            (List.Perm.swap t3 t1 [])).trans
            (List.Perm.swap t3 t2 [t1])))
          hksorted htarget
      · simp only [Prod.mk.injEq] at h
        rw [h.1, h.2.1, h.2.2] at hkperm
        exact List.eq_of_perm_of_sorted
          (hkperm.trans (List.reverse_perm [t3, t2, t1])) hksorted
          htarget
    have := hfinal [t3, t2, t1] hkey3
    simpa using this

/-- Witness for C1 at a concrete input: one reply to an empty post is
sorted; three replies at times 20, 10, 30 (the `(t2, t1, t3)` insertion
order for `t1 = 10 < t2 = 20 < t3 = 30`) end up `[30, 20, 10]`. -/
theorem replyToPost_replies_sorted_witness :
    (∃ p', findPost (replyToPost [⟨5, 1, "h", none, [], [], 0⟩]
          ⟨2, "b", "", []⟩ 5 "hi" 4).2 5 = some p'
        ∧ List.Sorted (descBy replyKey) p'.replies)
    ∧ (∃ p', findPost (replyToPost (replyToPost (replyToPost
            [⟨5, 1, "h", none, [], [], 0⟩] ⟨2, "b", "", []⟩ 5 "x" 20).2
            ⟨3, "c", "", []⟩ 5 "y" 10).2 ⟨4, "d", "", []⟩ 5 "z" 30).2 5
          = some p'
        ∧ List.map Reply.createdAt p'.replies
            = [some 30, some 20, some 10]) :=
  ⟨replyToPost_replies_sorted.1 [⟨5, 1, "h", none, [], [], 0⟩]
      ⟨2, "b", "", []⟩ 5 "hi" 4 ⟨5, 1, "h", none, [], [], 0⟩ rfl rfl,
    replyToPost_replies_sorted.2 [⟨5, 1, "h", none, [], [], 0⟩]
      ⟨2, "b", "", []⟩ ⟨3, "c", "", []⟩ ⟨4, "d", "", []⟩ 5 "x" "y" "z"
      10 20 30 20 10 30 ⟨5, 1, "h", none, [], [], 0⟩ rfl rfl rfl rfl rfl
      (by decide) (by decide)
      (Or.inr (Or.inr (Or.inl rfl)))⟩

end ThreadsBackend
